import Mathlib

/-!
Verification development for the `who_is_jc` helper (`src/who_is_jc.py`).

The Python module is embedded shallowly: the process environment, the
Windows persisted-user-environment store (`winreg`), the interactive
prompt, the setup-helper subprocess and the external CLI tool are
oracles collected in an `OS` structure, and the module-level mutable
globals (`_TOKEN_CACHE`, `_SETUP_HELPER_ATTEMPTED`) are threaded
explicitly.  Python strings are Lean `String`s; `str.strip()` is
`String.trim`, `str.lower()` is `String.toLower`, and the truthiness
test `if s:` on an optional string is `truthy`.
-/

namespace WhoIsJC

/-- Python `str.strip()` (whitespace dropped at both ends), written over
the character list so that it evaluates inside the kernel. -/
def pyStrip (s : String) : String :=
  String.mk (((s.data.dropWhile Char.isWhitespace).reverse.dropWhile
    Char.isWhitespace).reverse)

/-- Python `str.lower()` (the strings in this module are ASCII). -/
def pyLower (s : String) : String :=
  String.mk (s.data.map Char.toLower)

/-- Python truthiness of `str | None`: `None` and `""` are falsy. -/
def truthy : Option String → Bool
  | some s => decide (s ≠ "")
  | none => false

/-- Python `pat in hay` on strings: substring containment. -/
def containsSub (hay pat : String) : Bool :=
  hay.data.tails.any (fun t => pat.data.isPrefixOf t)

/-- The oracles standing for the process environment and the external
world seen by `who_is_jc.py`.  `env` is the `os.environ` snapshot,
`userEnv` the Windows persisted user environment (`HKCU\Environment`),
`promptResults` the successive outcomes of `_prompt_for_token` (`none`
when the user skips), `execute` the external Copilot CLI invocation
(indexed by invocation count, given the environment passed to it), and
`setupHelperExists` / `setupHelperExit` describe the one-time setup
helper subprocess (`none` exit = the launch raised). -/
structure OS where
  env : String → Option String
  userEnv : String → Option String
  isWindows : Bool
  promptResults : Nat → Option String
  setupHelperExists : Bool
  setupHelperExit : Option Int
  execute : Nat → (String → Option String) → Int × String × String
  findExe : Option String
  installOk : Bool
  findExeAfterInstall : Option String

/-- `_read_user_environment_variable`: `None` off Windows, else the
persisted store (the oracle already folds in the registry error and
non-string cases returning `None`). -/
def readUserEnvVar (os : OS) (name : String) : Option String :=
  if os.isWindows then os.userEnv name else none

/-- `_TOKEN_ENV_KEYS` (= `_TOKEN_EXPORT_KEYS`, the tuples are equal). -/
def tokenEnvKeys : List String :=
  ["COPILOT_REQUESTS_PAT", "COPILOT_REQUESTS_TOKEN", "COPILOT_PAT",
   "COPILOT_TOKEN", "COPILOT_GITHUB_TOKEN", "GITHUB_COPILOT_TOKEN",
   "GH_COPILOT_TOKEN", "GH_TOKEN", "GITHUB_TOKEN"]

/-- The pattern `value = f(key); if value: return value.strip()` applied
to each key in turn (`_resolve_token`'s lookup loops). -/
def lookupTruthy (f : String → Option String) : List String → Option String
  | [] => none
  | k :: ks =>
    match f k with
    | some v => if v = "" then lookupTruthy f ks else some (pyStrip v)
    | none => lookupTruthy f ks

/-- `_resolve_token` (lines 406-425): primary env var, then the
persisted store for the primary name (Windows only), then the secondary
env vars in order, then the persisted store for every name (Windows
only), then the in-memory `_TOKEN_CACHE`. -/
def resolveToken (os : OS) (cache : Option String) : Option String :=
  match lookupTruthy os.env ["COPILOT_REQUESTS_PAT"] with
  | some t => some t
  | none =>
    match (if os.isWindows then
            lookupTruthy (readUserEnvVar os) ["COPILOT_REQUESTS_PAT"]
          else none) with
    | some t => some t
    | none =>
      match lookupTruthy os.env (tokenEnvKeys.drop 1) with
      | some t => some t
      | none =>
        match (if os.isWindows then
                lookupTruthy (readUserEnvVar os) tokenEnvKeys
              else none) with
        | some t => some t
        | none => cache

/-- The credential sources of spec section 4.1 in their stated priority
order: (a) the primary env var, (b) the persisted store under the same
name, (c) each secondary env var in order, (d) the persisted store under
every name including the primary. -/
def tokenSources (os : OS) : List (Option String) :=
  [os.env "COPILOT_REQUESTS_PAT", readUserEnvVar os "COPILOT_REQUESTS_PAT"] ++
    (tokenEnvKeys.drop 1).map os.env ++ tokenEnvKeys.map (readUserEnvVar os)

/-- Modelled from the spec's words (section 4.1 / claim C2): the value of
the first (highest-priority) non-empty source, stripped, else the
in-memory cache (source (e)); `none` when everything is empty. -/
def resolveTokenSpec (os : OS) (cache : Option String) : Option String :=
  match (tokenSources os).find? truthy with
  | some (some v) => some (pyStrip v)
  | _ => cache

theorem lookupTruthy_eq_find (f : String → Option String) (ks : List String) :
    lookupTruthy f ks =
      match (ks.map f).find? truthy with
      | some (some v) => some (pyStrip v)
      | _ => none := by
  induction ks with
  | nil => rfl
  | cons k ks ih =>
    simp only [lookupTruthy, List.map_cons, List.find?]
    cases hk : f k with
    | none => simpa [truthy] using ih
    | some v =>
      by_cases hv : v = ""
      · simpa [truthy, hv] using ih
      · simp [truthy, hv]

theorem find?_append {α : Type} (p : α → Bool) (l₁ l₂ : List α) :
    (l₁ ++ l₂).find? p =
      match l₁.find? p with
      | some a => some a
      | none => l₂.find? p := by
  induction l₁ with
  | nil => simp
  | cons a l₁ ih =>
    by_cases ha : p a
    · simp [List.find?, ha]
    · simp only [List.cons_append, List.find?, ha]
      exact ih

/-- First-hit scan over a list of optional source values: the stripped
value of the first truthy entry, else the default.  Both the code-side
and the spec-side resolver reduce to it. -/
def scanStrip (l : List (Option String)) (dflt : Option String) : Option String :=
  match l with
  | [] => dflt
  | x :: xs =>
    match x with
    | some v => if v = "" then scanStrip xs dflt else some (pyStrip v)
    | none => scanStrip xs dflt

theorem lookupTruthy_scan (f : String → Option String) (ks : List String)
    (rest : Option String) :
    (match lookupTruthy f ks with
     | some t => some t
     | none => rest) = scanStrip (ks.map f) rest := by
  induction ks with
  | nil => rfl
  | cons k ks ih =>
    simp only [lookupTruthy, List.map_cons, scanStrip]
    cases hk : f k with
    | none => exact ih
    | some v =>
      by_cases hv : v = ""
      · simpa [hv] using ih
      · simp [hv]

theorem scanStrip_append (l₁ l₂ : List (Option String)) (dflt : Option String) :
    scanStrip (l₁ ++ l₂) dflt = scanStrip l₁ (scanStrip l₂ dflt) := by
  induction l₁ with
  | nil => rfl
  | cons x xs ih =>
    cases x with
    | none => simpa [scanStrip] using ih
    | some v =>
      by_cases hv : v = ""
      · simpa [scanStrip, hv] using ih
      · simp [scanStrip, hv]

theorem resolveTokenSpec_scan (os : OS) (cache : Option String) :
    resolveTokenSpec os cache = scanStrip (tokenSources os) cache := by
  unfold resolveTokenSpec
  generalize tokenSources os = l
  induction l with
  | nil => rfl
  | cons x xs ih =>
    cases x with
    | none => simpa [scanStrip, List.find?, truthy] using ih
    | some v =>
      by_cases hv : v = ""
      · simpa [scanStrip, List.find?, truthy, hv] using ih
      · simp [scanStrip, List.find?, truthy, hv]

/-- C2.  `_resolve_token` returns the first non-empty credential in the
priority order of spec 4.1 — primary process env var, persisted store
under the primary name, each secondary env var in the fixed order,
persisted store under every name, then the in-memory prompt cache — a
higher-priority non-empty source winning regardless of lower-priority
ones, and `none` (not an exception) when every source is empty: the
code-derived `resolveToken` coincides with the spec-derived
`resolveTokenSpec` on every environment and cache state. -/
theorem resolve_token_priority (os : OS) (cache : Option String) :
    resolveToken os cache = resolveTokenSpec os cache := by
  have hnowin : ∀ ks : List String, os.isWindows = false →
      scanStrip (ks.map (readUserEnvVar os)) cache = cache := by
    intro ks hw
    induction ks with
    | nil => rfl
    | cons k ks ih => simpa [scanStrip, readUserEnvVar, hw] using ih
  rw [resolveTokenSpec_scan]
  unfold resolveToken tokenSources
  rw [List.append_assoc, scanStrip_append, scanStrip_append]
  by_cases hw : os.isWindows
  · simp only [hw, if_true]
    rw [lookupTruthy_scan os.env ["COPILOT_REQUESTS_PAT"],
      lookupTruthy_scan (readUserEnvVar os) ["COPILOT_REQUESTS_PAT"],
      lookupTruthy_scan os.env (tokenEnvKeys.drop 1),
      lookupTruthy_scan (readUserEnvVar os) tokenEnvKeys]
    simp [scanStrip, List.map_cons]
  · replace hw : os.isWindows = false := by simpa using hw
    simp only [hw, if_false]
    rw [hnowin _ hw]
    rw [lookupTruthy_scan os.env ["COPILOT_REQUESTS_PAT"],
      lookupTruthy_scan os.env (tokenEnvKeys.drop 1)]
    have hb : readUserEnvVar os "COPILOT_REQUESTS_PAT" = none := by
      simp [readUserEnvVar, hw]
    simp [scanStrip, List.map_cons, hb]

/-- `_TOKEN_EXPORT_KEYS` (lines 37-47). -/
def tokenExportKeys : List String :=
  ["COPILOT_REQUESTS_PAT", "COPILOT_REQUESTS_TOKEN", "COPILOT_PAT",
   "COPILOT_TOKEN", "COPILOT_GITHUB_TOKEN", "GITHUB_COPILOT_TOKEN",
   "GH_COPILOT_TOKEN", "GH_TOKEN", "GITHUB_TOKEN"]

/-- `_token_prompt_allowed` (lines 398-403). -/
def promptAllowed (os : OS) : Bool :=
  match os.env "WHO_IS_JC_DISABLE_TOKEN_PROMPT" with
  | none => true
  | some raw => !(["1", "true", "yes", "on", "y"].contains (pyLower (pyStrip raw)))

/-- The export loop of `_copilot_env` (lines 437-441): when the token is
truthy, write it under every key of `_TOKEN_EXPORT_KEYS`, skipping
`GITHUB_TOKEN` and `GH_TOKEN` when the base environment already holds a
truthy value for them. -/
def exportEnv (base : String → Option String) (token : Option String) :
    String → Option String :=
  match token with
  | some t =>
    if t = "" then base
    else fun k =>
      if tokenExportKeys.contains k then
        if (k = "GITHUB_TOKEN" ∨ k = "GH_TOKEN") ∧ truthy (base k) then base k
        else some t
      else base k
  | none => base

/-- The result of `_copilot_env`: the environment dict it returns, the
`_TOKEN_CACHE` global after the call, and whether `_prompt_for_token`
was invoked (the interactive prompt was issued). -/
structure EnvBuild where
  env : String → Option String
  cache : Option String
  didPrompt : Bool

/-- `_copilot_env` (lines 428-442).  `promptIdx` indexes the prompt
oracle (number of prompts issued so far in the process). -/
def copilotEnv (os : OS) (promptIdx : Nat) (promptFlag : Bool)
    (cache : Option String) : EnvBuild :=
  let token0 := resolveToken os cache
  if promptFlag ∧ token0 = none ∧ promptAllowed os then
    match os.promptResults promptIdx with
    | some t =>
      if t = "" then ⟨exportEnv os.env none, cache, true⟩
      else ⟨exportEnv os.env (some t), some t, true⟩
    | none => ⟨exportEnv os.env none, cache, true⟩
  else ⟨exportEnv os.env token0, cache, false⟩

/-- C7.  When a credential is resolved, `_copilot_env` assigns that one
value to every alias variable of `_TOKEN_EXPORT_KEYS`, except that
`GH_TOKEN` and `GITHUB_TOKEN` keep a pre-existing non-empty (truthy)
value; every key outside the export list is carried over from the
caller's environment unchanged. -/
theorem copilot_env_exports (os : OS) (cache : Option String) (t : String)
    (h : resolveToken os cache = some t) (ht : ¬t = "") (k : String) :
    (copilotEnv os 0 false cache).env k =
      if tokenExportKeys.contains k ∧
          ¬((k = "GITHUB_TOKEN" ∨ k = "GH_TOKEN") ∧ truthy (os.env k)) then
        some t
      else os.env k := by
  show (exportEnv os.env (resolveToken os cache)) k = _
  rw [h]
  simp only [exportEnv, if_neg ht]
  by_cases hk : tokenExportKeys.contains k
  · by_cases hg : (k = "GITHUB_TOKEN" ∨ k = "GH_TOKEN") ∧ truthy (os.env k)
    · rw [if_pos hk, if_pos hg, if_neg (fun hc => hc.2 hg)]
    · rw [if_pos hk, if_neg hg, if_pos ⟨hk, hg⟩]
  · rw [if_neg hk, if_neg (fun hc => hk hc.1)]

/-- A concrete environment exercising `copilot_env_exports`: a secondary
env var holds the credential and `GH_TOKEN` holds a pre-existing value. -/
def osC7 : OS where
  env := fun k =>
    if k = "COPILOT_PAT" then some "tok-c7"
    else if k = "GH_TOKEN" then some "keep-me" else none
  userEnv := fun _ => none
  isWindows := false
  promptResults := fun _ => none
  setupHelperExists := false
  setupHelperExit := none
  execute := fun _ _ => (0, "", "")
  findExe := none
  installOk := false
  findExeAfterInstall := none

theorem copilot_env_exports_witness :
    (copilotEnv osC7 0 false none).env "GITHUB_COPILOT_TOKEN" = some "tok-c7" ∧
      (copilotEnv osC7 0 false none).env "GH_TOKEN" = some "keep-me" ∧
      (copilotEnv osC7 0 false none).env "HOME" = none := by
  refine ⟨?_, ?_, ?_⟩
  · rw [copilot_env_exports osC7 none "tok-c7" (by decide) (by decide)]
    decide
  · rw [copilot_env_exports osC7 none "tok-c7" (by decide) (by decide)]
    decide
  · rw [copilot_env_exports osC7 none "tok-c7" (by decide) (by decide)]
    decide

/-- The single-quote character, the one character PowerShell treats
specially inside a single-quoted string. -/
def sq : Char := Char.ofNat 39

/-- `value.replace("'", "''")` over the characters (single-character
pattern, so the replacement is a per-character expansion). -/
def psQuoteL : List Char → List Char
  | [] => []
  | c :: cs => if c = sq then sq :: sq :: psQuoteL cs else c :: psQuoteL cs

/-- `_ps_quote` (lines 208-209): each single quote doubled and the
result wrapped in single quotes. -/
def psQuote (s : String) : String :=
  String.mk (sq :: (psQuoteL s.data ++ [sq]))

/-- `prompt_payload` (line 560). -/
def promptPayload (prompt : String) : String :=
  if "ask".data.isPrefixOf (pyLower prompt).data then prompt
  else "ask " ++ prompt

/-- The fixed flags after the quoted prompt in `command_text`
(lines 565-571), including the optional `--model` part. -/
def cliFixedTail (model : Option String) : String :=
  " --allow-all-tools --stream off --no-color" ++
    (match model with
     | some m => if m = "" then "" else " --model " ++ psQuote m
     | none => "")

/-- `command_text` as built by `_run_copilot_cli` (lines 563-571). -/
def cliCommandText (exe promptText : String) (model : Option String) : String :=
  "Set-ExecutionPolicy -Scope Process -ExecutionPolicy Bypass -Force; " ++
    ("& " ++ psQuote exe ++ " --prompt " ++ psQuote (promptPayload promptText)) ++
    cliFixedTail model

/-- A scanner for PowerShell single-quoted string bodies: reading the
characters after an opening quote, it returns the literal value the
shell delivers and the characters following the closing quote; `none`
means the string never terminates (a syntax error).  A doubled quote
is an escaped literal quote. -/
def psParseSQBody : List Char → Option (List Char × List Char)
  | [] => none
  | c :: cs =>
    if c = sq then
      match cs with
      | [] => some ([], [])
      | c2 :: cs2 =>
        if c2 = sq then (psParseSQBody cs2).map (fun p => (sq :: p.1, p.2))
        else some ([], cs)
    else (psParseSQBody cs).map (fun p => (c :: p.1, p.2))

theorem psParseSQBody_cons (c : Char) (t : List Char) (hc : ¬c = sq) :
    psParseSQBody (c :: t) = (psParseSQBody t).map (fun p => (c :: p.1, p.2)) := by
  rw [psParseSQBody.eq_def]
  cases t <;> simp [hc]

theorem psParse_round (xs rest : List Char)
    (h : ∀ c, rest.head? = some c → ¬c = sq) :
    psParseSQBody (psQuoteL xs ++ sq :: rest) = some (xs, rest) := by
  induction xs with
  | nil =>
    cases rest with
    | nil => simp [psParseSQBody, psQuoteL]
    | cons r rs =>
      have hr : ¬r = sq := h r rfl
      simp [psParseSQBody, psQuoteL, hr]
  | cons c cs ih =>
    by_cases hc : c = sq
    · subst hc
      simp [psQuoteL, psParseSQBody, ih]
    · simp only [psQuoteL, if_neg hc, List.cons_append]
      rw [psParseSQBody_cons c _ hc, ih]
      rfl

/-- C8.  For every executable path, prompt string and model — quote
characters included — the PowerShell command line built by
`_run_copilot_cli` via `_ps_quote` decomposes into the fixed parts and
two (or three) single-quoted string tokens, and the PowerShell
single-quoted-string scanner terminates each token exactly at its
closing quote, recovering the executable path and the prompt payload
character-for-character (quotes delivered literally, no truncation)
and leaving exactly the fixed flag tail (no injected commands). -/
theorem ps_quote_delivers (exe p : String) (model : Option String) :
    (cliCommandText exe p model).data =
      "Set-ExecutionPolicy -Scope Process -ExecutionPolicy Bypass -Force; & ".data
        ++ sq :: (psQuoteL exe.data ++ sq :: (" --prompt ".data
          ++ sq :: (psQuoteL (promptPayload p).data
            ++ sq :: (cliFixedTail model).data))) ∧
    psParseSQBody (psQuoteL exe.data ++ sq :: (" --prompt ".data
        ++ sq :: (psQuoteL (promptPayload p).data
          ++ sq :: (cliFixedTail model).data))) =
      some (exe.data, " --prompt ".data
        ++ sq :: (psQuoteL (promptPayload p).data
          ++ sq :: (cliFixedTail model).data)) ∧
    psParseSQBody (psQuoteL (promptPayload p).data
        ++ sq :: (cliFixedTail model).data) =
      some ((promptPayload p).data, (cliFixedTail model).data) := by
  refine ⟨?_, ?_, ?_⟩
  · show ("Set-ExecutionPolicy -Scope Process -ExecutionPolicy Bypass -Force; ".data
        ++ (("& ".data ++ (psQuote exe).data ++ " --prompt ".data
          ++ (psQuote (promptPayload p)).data) ++ (cliFixedTail model).data)) = _
    simp [psQuote]
  · apply psParse_round
    intro c hc
    have h2 : c = ' ' := by simpa using hc.symm
    subst h2
    decide
  · apply psParse_round
    intro c hc
    have hhead : (cliFixedTail model).data.head? = some ' ' := by
      cases model with
      | none => rfl
      | some m =>
        by_cases hm : m = ""
        · simp [cliFixedTail, hm]
        · simp [cliFixedTail, hm]
    rw [hhead] at hc
    have h2 : c = ' ' := by simpa using hc.symm
    subst h2
    decide

/-- A concrete command line exercising `ps_quote_delivers`: the prompt
carries embedded single and double quotes. -/
def promptC8 : String := "Who\x27s \x22John Connor\x22?"

theorem ps_quote_delivers_witness :
    psParseSQBody (psQuoteL (promptPayload promptC8).data
        ++ sq :: (cliFixedTail none).data) =
      some ((promptPayload promptC8).data, (cliFixedTail none).data) :=
  (ps_quote_delivers "C:\x5cTools\x5ccopilot.exe" promptC8 none).2.2

/-- JSON values, as `json.loads` produces them. -/
inductive Json where
  | null
  | bool (b : Bool)
  | num (n : Int)
  | str (s : String)
  | arr (elems : List Json)
  | obj (fields : List (String × Json))

/-- Python `dict.get(key)` on a parsed JSON object; `none` for a missing
key (and unused on non-objects, where Python would raise
`AttributeError`). -/
def Json.get (j : Json) (k : String) : Option Json :=
  match j with
  | .obj fs => fs.lookup k
  | _ => none

/-- The response-parsing half of `_query_copilot_http` (lines 124-143),
applied to the decoded JSON body: requires `choices` to be a non-empty
list whose first element is an object with a `message` object whose
`content` is a string, and returns the stripped content; every other
shape raises (`RuntimeError` / `TypeError`, and `AttributeError` for a
non-object top level, all modelled as `Except.error`). -/
def parseHttpResponse (payloadObj : Json) : Except String String :=
  match payloadObj with
  | .obj _ =>
    match payloadObj.get "choices" with
    | some (Json.arr (first :: _)) =>
      match (match first with
             | .obj _ => first.get "message"
             | _ => none) with
      | some (Json.obj mfs) =>
        match (Json.obj mfs).get "content" with
        | some (Json.str content) => .ok (pyStrip content)
        | _ => .error "Copilot HTTP response did not include text content"
      | _ => .error "Copilot HTTP response missing message content"
    | _ => .error "Copilot HTTP response did not contain choices"
  | _ => .error "AttributeError: response object has no attribute get"

/-- The network half of `_query_copilot_http` (lines 110-128), as an
oracle: `error` carries the message of an `HTTPError` (non-2xx, with
status and detail) or `URLError` (network failure); `ok none` is a 2xx
body that is not valid JSON; `ok (some j)` a decoded 2xx body. -/
def queryCopilotHttp (net : Except String (Option Json)) : Except String String :=
  match net with
  | .error e => .error e
  | .ok none => .error "Copilot HTTP response was not valid JSON"
  | .ok (some j) => parseHttpResponse j

/-- Modelled from the spec's words (section 4.7 / claim C6): the
response shape required for success — valid JSON with a non-empty
`choices` list whose first element is an object holding a `message`
object whose `content` is a string. -/
def goodHttpShape (j : Json) : Bool :=
  match j with
  | .obj _ =>
    match j.get "choices" with
    | some (Json.arr (Json.obj ffs :: _)) =>
      match (Json.obj ffs).get "message" with
      | some (Json.obj mfs) =>
        match (Json.obj mfs).get "content" with
        | some (Json.str _) => true
        | _ => false
      | _ => false
    | _ => false
  | _ => false

/-- The sample response of the spec's testable property:
`{"choices":[{"message":{"content":"Sarah Connor's son."}}]}`. -/
def sampleHttpJson : Json :=
  Json.obj [("choices", Json.arr
    [Json.obj [("message", Json.obj [("content", Json.str "Sarah Connor\x27s son.")])]])]

/-- C6.  `_query_copilot_http` succeeds exactly when the response body
is valid JSON of the required shape (non-empty `choices`, first element
an object with a `message` object whose `content` is a string); any
other shape, any network error and any non-2xx status yield an error
for this single attempt; on the sample response the returned answer is
the trimmed content text. -/
theorem query_copilot_http_shape (net : Except String (Option Json)) :
    ((∃ s, queryCopilotHttp net = .ok s) ↔
      (∃ j, net = .ok (some j) ∧ goodHttpShape j = true)) ∧
    queryCopilotHttp (.ok (some sampleHttpJson)) = .ok "Sarah Connor\x27s son." := by
  refine ⟨⟨?_, ?_⟩, ?_⟩
  · rintro ⟨s, hs⟩
    match hnet : net with
    | .error e => exact absurd hs (by simp [queryCopilotHttp])
    | .ok none => exact absurd hs (by simp [queryCopilotHttp])
    | .ok (some j) =>
      refine ⟨j, rfl, ?_⟩
      simp only [queryCopilotHttp] at hs
      unfold parseHttpResponse at hs
      unfold goodHttpShape
      cases j with
      | obj fs =>
        cases hch : (Json.obj fs).get "choices" with
        | none => simp [hch] at hs
        | some ch =>
          cases ch with
          | arr elems =>
            cases elems with
            | nil => simp [hch] at hs
            | cons first rest =>
              cases first with
              | obj ffs =>
                cases hmsg : (Json.obj ffs).get "message" with
                | none => simp [hch, hmsg] at hs
                | some msg =>
                  cases msg with
                  | obj mfs =>
                    cases hcon : (Json.obj mfs).get "content" with
                    | none => simp [hch, hmsg, hcon] at hs
                    | some con =>
                      cases con <;> simp_all [hch, hmsg, hcon]
                  | null => simp [hch, hmsg] at hs
                  | bool b => simp [hch, hmsg] at hs
                  | num n => simp [hch, hmsg] at hs
                  | str s2 => simp [hch, hmsg] at hs
                  | arr a => simp [hch, hmsg] at hs
              | null => simp [hch] at hs
              | bool b => simp [hch] at hs
              | num n => simp [hch] at hs
              | str s2 => simp [hch] at hs
              | arr a => simp [hch] at hs
          | null => simp [hch] at hs
          | bool b => simp [hch] at hs
          | num n => simp [hch] at hs
          | str s2 => simp [hch] at hs
          | obj fs2 => simp [hch] at hs
      | null => simp at hs
      | bool b => simp at hs
      | num n => simp at hs
      | str s2 => simp at hs
      | arr a => simp at hs
  · rintro ⟨j, rfl, hj⟩
    simp only [queryCopilotHttp]
    unfold parseHttpResponse
    unfold goodHttpShape at hj
    cases j with
    | obj fs =>
      cases hch : (Json.obj fs).get "choices" with
      | none => simp [hch] at hj
      | some ch =>
        cases ch with
        | arr elems =>
          cases elems with
          | nil => simp [hch] at hj
          | cons first rest =>
            cases first with
            | obj ffs =>
              cases hmsg : (Json.obj ffs).get "message" with
              | none => simp [hch, hmsg] at hj
              | some msg =>
                cases msg with
                | obj mfs =>
                  cases hcon : (Json.obj mfs).get "content" with
                  | none => simp [hch, hmsg, hcon] at hj
                  | some con =>
                    cases con <;> simp_all [hch, hmsg, hcon]
                | null => simp [hch, hmsg] at hj
                | bool b => simp [hch, hmsg] at hj
                | num n => simp [hch, hmsg] at hj
                | str s2 => simp [hch, hmsg] at hj
                | arr a => simp [hch, hmsg] at hj
            | null => simp [hch] at hj
            | bool b => simp [hch] at hj
            | num n => simp [hch] at hj
            | str s2 => simp [hch] at hj
            | arr a => simp [hch] at hj
        | null => simp [hch] at hj
        | bool b => simp [hch] at hj
        | num n => simp [hch] at hj
        | str s2 => simp [hch] at hj
        | obj fs2 => simp [hch] at hj
    | null => simp at hj
    | bool b => simp at hj
    | num n => simp at hj
    | str s2 => simp at hj
    | arr a => simp at hj
  · rfl

theorem query_copilot_http_shape_witness :
    queryCopilotHttp (.ok (some sampleHttpJson)) = .ok "Sarah Connor\x27s son." :=
  (query_copilot_http_shape (.ok (some sampleHttpJson))).2

/-- `_apply_language_directive` (lines 805-819). -/
def applyLanguageDirective (question : String) (language : Option String) : String :=
  match language with
  | none => question
  | some lang0 =>
    if lang0 = "" then question
    else
      let lang := pyLower (pyStrip lang0)
      if "es".data.isPrefixOf lang.data then
        question ++ "\n\nResponde en español latino, claro, cálido y con empatía. Si el contenido incluye nombres propios en otro idioma, consérvalos."
      else if "en".data.isPrefixOf lang.data then
        question ++ "\n\nPlease answer in clear, friendly English suitable for all ages."
      else question ++ "\n\nPlease answer in " ++ lang0 ++ " with warmth and clarity."

/-- `model or os.environ.get("COPILOT_MODEL") or "default"` (line 734). -/
def envModelOrDefault (os : OS) : String :=
  match os.env "COPILOT_MODEL" with
  | some m => if m = "" then "default" else m
  | none => "default"

/-- The effective model recorded in the outcome (line 734). -/
def modelEffective (os : OS) (model : Option String) : String :=
  match model with
  | some m => if m = "" then envModelOrDefault os else m
  | none => envModelOrDefault os

/-- `os.environ.get("COPILOT_MODEL", "gpt-4o-mini")` (line 88). -/
def envModelGet (os : OS) : String :=
  match os.env "COPILOT_MODEL" with
  | some m => m
  | none => "gpt-4o-mini"

/-- The `model` field of the HTTP request payload (line 88), which the
outcome reports on the HTTP path (line 774). -/
def payloadModel (os : OS) (model : Option String) : String :=
  match model with
  | some m => if m = "" then envModelGet os else m
  | none => envModelGet os

/-- The opt-in test of `COPILOT_HTTP_FALLBACK` (lines 758-759): unset
means allowed; a set value must strip-lower to one of the accepted
tokens. -/
def fallbackAllowed (os : OS) : Bool :=
  match os.env "COPILOT_HTTP_FALLBACK" with
  | none => true
  | some raw => ["1", "true", "yes", "on", "y"].contains (pyLower (pyStrip raw))

/-- The diagnostic sub-record of the CLI attempt (lines 735-741). -/
structure CliReport where
  returncode : Int
  stdout : String
  stderr : String
  model : String
  language : Option String

/-- The Query Outcome record returned by `query_copilot` (the dictionary
of lines 744-751 / 770-780). -/
structure QueryOutcome where
  question : String
  answer : String
  source : String
  model : String
  cli : CliReport
  language : Option String

/-- The final empty-response message of `query_copilot` (line 783). -/
def emptyRespMsg : String :=
  "Copilot returned an empty response. Run \x60copilot\x60 interactively and complete \x60/login\x60 once to authorize this PAT."

/-- `query_copilot` (lines 722-785) given the Invocation Result of
`run_copilot_query` (`code`, `stdoutS`, `stderrS`) and the outcome of
`_query_copilot_http` as oracles.  The second component records whether
the HTTP fallback was attempted. -/
def queryCopilot (os : OS) (cache : Option String) (question : String)
    (model language : Option String) (code : Int) (stdoutS stderrS : String)
    (httpResult : Except String String) : Except String QueryOutcome × Bool :=
  let answer := pyStrip stdoutS
  let message := if stderrS = "" then "" else pyStrip stderrS
  let modelEff := modelEffective os model
  let report : CliReport := ⟨code, stdoutS, stderrS, modelEff, language⟩
  if code = 0 ∧ ¬answer = "" then
    (.ok ⟨question, answer, "cli", modelEff, report, language⟩, false)
  else if ¬code = 0 then
    (.error (if ¬message = "" then message
             else if ¬answer = "" then answer
             else "Copilot CLI exited with status " ++ toString code), false)
  else
    let token := resolveToken os cache
    if truthy token ∧ fallbackAllowed os = true then
      match httpResult with
      | .error e =>
        let message2 := if message = "" then e else message
        (.error (if ¬message2 = "" then message2 else emptyRespMsg), true)
      | .ok httpAnswer =>
        if ¬httpAnswer = "" then
          (.ok ⟨question, httpAnswer, "http", payloadModel os model, report,
            language⟩, true)
        else
          (.error (if ¬message = "" then message else emptyRespMsg), true)
    else
      (.error (if ¬message = "" then message else emptyRespMsg), false)

/-- C4.  When the CLI invocation exits 0 with non-empty stripped stdout,
`query_copilot` returns an outcome with source `cli` and does not
attempt the HTTP fallback; conversely, the HTTP fallback is attempted
only when the CLI exited 0 with an empty stripped answer, a credential
is resolvable (truthy) and the fallback is not disabled by
`COPILOT_HTTP_FALLBACK`. -/
theorem query_copilot_cli_provenance (os : OS) (cache : Option String)
    (question : String) (model language : Option String) (code : Int)
    (stdoutS stderrS : String) (httpResult : Except String String) :
    (code = 0 → ¬pyStrip stdoutS = "" →
      (queryCopilot os cache question model language code stdoutS stderrS
          httpResult).2 = false ∧
      ∃ o, (queryCopilot os cache question model language code stdoutS stderrS
          httpResult).1 = .ok o ∧ o.source = "cli" ∧ o.answer = pyStrip stdoutS) ∧
    ((queryCopilot os cache question model language code stdoutS stderrS
        httpResult).2 = true →
      code = 0 ∧ pyStrip stdoutS = "" ∧ truthy (resolveToken os cache) = true ∧
        fallbackAllowed os = true) := by
  constructor
  · intro h0 hne
    simp only [queryCopilot]
    rw [if_pos ⟨h0, hne⟩]
    exact ⟨rfl, _, rfl, rfl, rfl⟩
  · intro hattempt
    simp only [queryCopilot] at hattempt
    by_cases h1 : code = 0 ∧ ¬pyStrip stdoutS = ""
    · rw [if_pos h1] at hattempt
      exact absurd hattempt (by simp)
    · rw [if_neg h1] at hattempt
      by_cases h2 : ¬code = 0
      · rw [if_pos h2] at hattempt
        exact absurd hattempt (by simp)
      · rw [if_neg h2] at hattempt
        push_neg at h2
        by_cases h3 : truthy (resolveToken os cache) ∧ fallbackAllowed os = true
        · refine ⟨h2, ?_, h3.1, h3.2⟩
          by_contra hne
          exact h1 ⟨h2, hne⟩
        · rw [if_neg h3] at hattempt
          exact absurd hattempt (by simp)

/-- C9.  `query_copilot` never returns an empty answer: it returns an
outcome exactly when the CLI exited 0 with a non-empty stripped stdout,
or the CLI exited 0 with an empty answer and the (enabled, credentialed)
HTTP fallback produced a non-empty answer; in every other case it
errors, and every returned outcome has a non-empty answer. -/
theorem query_copilot_nonempty_answer (os : OS) (cache : Option String)
    (question : String) (model language : Option String) (code : Int)
    (stdoutS stderrS : String) (httpResult : Except String String) :
    (∀ o, (queryCopilot os cache question model language code stdoutS stderrS
        httpResult).1 = .ok o → ¬o.answer = "") ∧
    ((∃ o, (queryCopilot os cache question model language code stdoutS stderrS
        httpResult).1 = .ok o) ↔
      (code = 0 ∧ (¬pyStrip stdoutS = "" ∨
        (truthy (resolveToken os cache) = true ∧ fallbackAllowed os = true ∧
          ∃ a, httpResult = .ok a ∧ ¬a = "")))) := by
  simp only [queryCopilot]
  by_cases h1 : code = 0 ∧ ¬pyStrip stdoutS = ""
  · rw [if_pos h1]
    constructor
    · intro o ho
      cases ho
      exact h1.2
    · simp [h1.1, h1.2]
  · rw [if_neg h1]
    by_cases h2 : ¬code = 0
    · rw [if_pos h2]
      constructor
      · intro o ho
        exact absurd ho (by simp)
      · simp [h2]
    · rw [if_neg h2]
      push_neg at h2
      have hemp : pyStrip stdoutS = "" := by
        by_contra hne
        exact h1 ⟨h2, hne⟩
      by_cases h3 : truthy (resolveToken os cache) ∧ fallbackAllowed os = true
      · rw [if_pos h3]
        cases httpResult with
        | error e =>
          dsimp only
          constructor
          · intro o ho
            exact absurd ho (by simp)
          · simp [hemp, h2]
        | ok a =>
          dsimp only
          by_cases ha : ¬a = ""
          · rw [if_pos ha]
            constructor
            · intro o ho
              cases ho
              exact ha
            · simp [h2, h3.1, h3.2, ha]
          · rw [if_neg ha]
            push_neg at ha
            constructor
            · intro o ho
              exact absurd ho (by simp)
            · simp [h2, hemp, ha]
      · rw [if_neg h3]
        constructor
        · intro o ho
          exact absurd ho (by simp)
        · simp only [iff_def]
          constructor
          · intro h
            exact absurd h (by simp)
          · rintro ⟨hc0, h | ⟨ht, hf, _⟩⟩
            · exact absurd ⟨hc0, h⟩ h1
            · exact absurd ⟨ht, hf⟩ h3

/-- The auth-failure indicator phrases of `_is_auth_error`
(lines 535-541). -/
def authIndicators : List String :=
  ["no authentication information", "/login", "authenticate with github",
   "copilot can be authenticated",
   "start \x27copilot\x27 and run the \x27/login\x27"]

/-- `_is_auth_error` (lines 533-542): case-insensitive substring match
of any indicator in the combined output. -/
def isAuthError (output : String) : Bool :=
  authIndicators.any (fun ind => containsSub (pyLower output) ind)

/-- The remediation tip of `_run_copilot_cli` (lines 615-618). -/
def authTip : String :=
  "Tip: launch \x60copilot\x60 interactively, run the \x60/login\x60 command, or persist a Copilot Requests PAT via \x60set_persistent_env_var\x60 (e.g., store it as COPILOT_REQUESTS_PAT then rerun).\n"

/-- `stderr = f"{stderr}{tip}" if stderr else tip` (line 619). -/
def appendTip (stderrS : String) : String :=
  if stderrS = "" then authTip else stderrS ++ authTip

/-- `if model: env["COPILOT_MODEL"] = model` (lines 590-591). -/
def envWithModel (model : Option String) (base : String → Option String) :
    String → Option String :=
  match model with
  | some m =>
    if m = "" then base
    else fun k => if k = "COPILOT_MODEL" then some m else base k
  | none => base

/-- `_invoke_setup_helper` (lines 497-530), returning whether Copilot
should be retried; the flag `_SETUP_HELPER_ATTEMPTED` is set by any
call (the caller threads it to `true` afterwards). -/
def invokeSetupHelper (os : OS) (setupAttempted : Bool) : Bool :=
  if setupAttempted then false
  else if os.setupHelperExists = false then false
  else
    match os.setupHelperExit with
    | none => false
    | some rc => rc = 0

/-- One recorded invocation of the external tool inside
`_run_copilot_cli`'s loop: whether the credential-augmented prompting
environment was used, whether `_prompt_for_token` was actually called
while building it, whether the setup helper was launched after it, the
environment passed to the tool, the Invocation Result, and the
classifier / token-availability values computed from it. -/
structure IterInfo where
  usedPromptEnv : Bool
  didPrompt : Bool
  launchedSetup : Bool
  env : String → Option String
  result : Int × String × String
  authError : Bool
  tokenAvail : Bool

/-- The loop-local and global mutable state of `_run_copilot_cli`:
`attempted_prompt` and `next_prompt` (lines 584-585), `_TOKEN_CACHE`,
`_SETUP_HELPER_ATTEMPTED`, and counters indexing the oracles. -/
structure LoopState where
  attemptedPrompt : Bool
  nextPrompt : Bool
  cache : Option String
  setupAttempted : Bool
  invIdx : Nat
  promptIdx : Nat

/-- One iteration of the `while True` loop of `_run_copilot_cli`
(lines 587-624): `res = some r` is a `return r`, `res = none` a
`continue`. -/
def stepLoop (os : OS) (model : Option String) (st : LoopState) :
    IterInfo × LoopState × Option (Int × String × String) :=
  let eb := if st.nextPrompt then copilotEnv os st.promptIdx true st.cache
            else ⟨os.env, st.cache, false⟩
  let env := envWithModel model eb.env
  let r := os.execute st.invIdx env
  let stdoutS := r.2.1
  let stderrS := r.2.2
  let authErr := isAuthError (stdoutS ++ stderrS)
  let tokenAvail := (resolveToken os eb.cache).isSome
  let st0 : LoopState :=
    { attemptedPrompt := st.attemptedPrompt, nextPrompt := false,
      cache := eb.cache, setupAttempted := st.setupAttempted,
      invIdx := st.invIdx + 1,
      promptIdx := st.promptIdx + (if eb.didPrompt then 1 else 0) }
  let info : IterInfo :=
    ⟨st.nextPrompt, eb.didPrompt, false, env, r, authErr, tokenAvail⟩
  if r.1 = 0 ∧ authErr = false then
    (info, st0, some (0, stdoutS, stderrS))
  else if authErr = true ∧ tokenAvail = false ∧ st.attemptedPrompt = false ∧
      promptAllowed os = true then
    (info, { st0 with attemptedPrompt := true, nextPrompt := true }, none)
  else if authErr = true then
    let retry := invokeSetupHelper os st.setupAttempted
    let launched := st.setupAttempted = false ∧ os.setupHelperExists = true
    let info2 : IterInfo :=
      ⟨st.nextPrompt, eb.didPrompt, decide launched, env, r, authErr, tokenAvail⟩
    let st1 : LoopState := { st0 with setupAttempted := true }
    if retry then (info2, st1, none)
    else if r.1 = 0 then (info2, st1, some (1, stdoutS, appendTip stderrS))
    else (info2, st1, some (r.1, stdoutS, appendTip stderrS))
  else
    (info, st0, some (r.1, stdoutS, stderrS))

/-- The `while True` loop of `_run_copilot_cli`, fuel-indexed (the
termination theorem shows fuel 3 always suffices); accumulates the
trace of invocations. -/
def runLoop (os : OS) (model : Option String) :
    Nat → LoopState → List IterInfo →
      Option ((Int × String × String) × LoopState × List IterInfo)
  | 0, _, _ => none
  | fuel + 1, st, tr =>
    match stepLoop os model st with
    | (info, st2, some r) => some (r, st2, tr ++ [info])
    | (info, st2, none) => runLoop os model fuel st2 (tr ++ [info])

/-- The loop state on entry to `_run_copilot_cli` (lines 584-585). -/
def initState (cache : Option String) (setupAttempted : Bool) : LoopState :=
  ⟨false, false, cache, setupAttempted, 0, 0⟩

/-- `_run_copilot_cli` (lines 545-624): the executable
discovery/installation preamble, then the retry loop.  The result also
carries the final global state and the trace of tool invocations. -/
def runCopilotCli (os : OS) (model : Option String) (cache : Option String)
    (setupAttempted : Bool) :
    Option ((Int × String × String) × LoopState × List IterInfo) :=
  match os.findExe with
  | some _ => runLoop os model 3 (initState cache setupAttempted) []
  | none =>
    if os.installOk = false then
      some ((128, "",
        "Unable to install the GitHub Copilot CLI automatically. Install it manually and retry.\n"),
        initState cache setupAttempted, [])
    else
      match os.findExeAfterInstall with
      | some _ => runLoop os model 3 (initState cache setupAttempted) []
      | none =>
        some ((128, "",
          "GitHub Copilot CLI installation did not expose the executable. Install manually and retry.\n"),
          initState cache setupAttempted, [])

theorem stepLoop_used (os : OS) (model : Option String) (st : LoopState) :
    (stepLoop os model st).1.usedPromptEnv = st.nextPrompt := by
  simp only [stepLoop]
  repeat' split
  all_goals rfl

theorem copilotEnv_noPrompt (os : OS) (i : Nat) (cache : Option String)
    (h : promptAllowed os = false) :
    (copilotEnv os i true cache).didPrompt = false := by
  simp only [copilotEnv]
  rw [if_neg (fun hc => by simp [h] at hc)]

theorem stepLoop_info_didPrompt (os : OS) (model : Option String)
    (st : LoopState) :
    (stepLoop os model st).1.didPrompt =
      (if st.nextPrompt then copilotEnv os st.promptIdx true st.cache
       else (⟨os.env, st.cache, false⟩ : EnvBuild)).didPrompt := by
  simp only [stepLoop]
  repeat' split
  all_goals rfl

theorem stepLoop_didPrompt (os : OS) (model : Option String) (st : LoopState)
    (h : (stepLoop os model st).1.didPrompt = true) :
    st.nextPrompt = true ∧ promptAllowed os = true := by
  rw [stepLoop_info_didPrompt] at h
  by_cases hnp : st.nextPrompt = true
  · refine ⟨hnp, ?_⟩
    rw [if_pos hnp] at h
    by_contra hpa
    have hpa2 : promptAllowed os = false := by
      cases hq : promptAllowed os with
      | true => exact absurd hq hpa
      | false => rfl
    rw [copilotEnv_noPrompt os _ _ hpa2] at h
    exact absurd h (by simp)
  · rw [if_neg hnp] at h
    exact absurd h (by simp)

theorem stepLoop_info_env (os : OS) (model : Option String) (st : LoopState) :
    (stepLoop os model st).1.env =
      envWithModel model
        ((if st.nextPrompt then copilotEnv os st.promptIdx true st.cache
          else (⟨os.env, st.cache, false⟩ : EnvBuild)).env) := by
  simp only [stepLoop]
  repeat' split
  all_goals rfl

theorem stepLoop_plainEnv (os : OS) (model : Option String) (st : LoopState)
    (h : st.nextPrompt = false) :
    (stepLoop os model st).1.env = envWithModel model os.env := by
  rw [stepLoop_info_env, if_neg (by simp [h])]

theorem invokeSetupHelper_true (os : OS) (b : Bool)
    (h : invokeSetupHelper os b = true) : b = false := by
  cases b with
  | false => rfl
  | true => exact absurd h (by simp [invokeSetupHelper])

theorem stepLoop_continue (os : OS) (model : Option String) (st : LoopState) :
    (stepLoop os model st).2.2 = none →
      ((stepLoop os model st).2.1.nextPrompt = true ∧
        st.attemptedPrompt = false ∧
        (stepLoop os model st).2.1.attemptedPrompt = true ∧
        (stepLoop os model st).1.authError = true ∧
        (stepLoop os model st).1.tokenAvail = false ∧
        promptAllowed os = true ∧
        (stepLoop os model st).2.1.setupAttempted = st.setupAttempted ∧
        (stepLoop os model st).1.launchedSetup = false) ∨
      ((stepLoop os model st).2.1.nextPrompt = false ∧
        (stepLoop os model st).2.1.attemptedPrompt = st.attemptedPrompt ∧
        (stepLoop os model st).2.1.setupAttempted = true ∧
        st.setupAttempted = false ∧
        (stepLoop os model st).1.authError = true) := by
  simp only [stepLoop]
  generalize (if st.nextPrompt = true then copilotEnv os st.promptIdx true st.cache
      else (⟨os.env, st.cache, false⟩ : EnvBuild)) = eb
  generalize os.execute st.invIdx (envWithModel model eb.env) = r0
  generalize isAuthError (r0.2.1 ++ r0.2.2) = aErr
  generalize (resolveToken os eb.cache).isSome = tAvail
  generalize hrt : invokeSetupHelper os st.setupAttempted = retry
  repeat' split
  all_goals intro h
  all_goals simp_all
  all_goals exact invokeSetupHelper_true os _ (by assumption)

theorem stepLoop_return (os : OS) (model : Option String) (st : LoopState)
    (r : Int × String × String) :
    (stepLoop os model st).2.2 = some r →
      ((stepLoop os model st).1.authError = false →
        r = ((stepLoop os model st).1.result.1,
          (stepLoop os model st).1.result.2.1,
          (stepLoop os model st).1.result.2.2)) ∧
      ((stepLoop os model st).1.authError = true →
        r.1 = (if (stepLoop os model st).1.result.1 = 0 then 1
          else (stepLoop os model st).1.result.1) ∧
        r.2.1 = (stepLoop os model st).1.result.2.1 ∧
        r.2.2 = appendTip (stepLoop os model st).1.result.2.2) := by
  simp only [stepLoop]
  generalize (if st.nextPrompt = true then copilotEnv os st.promptIdx true st.cache
      else (⟨os.env, st.cache, false⟩ : EnvBuild)) = eb
  generalize os.execute st.invIdx (envWithModel model eb.env) = r0
  generalize isAuthError (r0.2.1 ++ r0.2.2) = aErr
  generalize (resolveToken os eb.cache).isSome = tAvail
  generalize invokeSetupHelper os st.setupAttempted = retry
  repeat' split
  all_goals intro h
  all_goals (try simp_all)
  all_goals (cases h; exact ⟨rfl, rfl, rfl⟩)

theorem stepLoop_setup_mono (os : OS) (model : Option String) (st : LoopState)
    (h : st.setupAttempted = true) :
    (stepLoop os model st).2.1.setupAttempted = true := by
  simp only [stepLoop]
  generalize (if st.nextPrompt = true then copilotEnv os st.promptIdx true st.cache
      else (⟨os.env, st.cache, false⟩ : EnvBuild)) = eb
  generalize os.execute st.invIdx (envWithModel model eb.env) = r0
  generalize isAuthError (r0.2.1 ++ r0.2.2) = aErr
  generalize (resolveToken os eb.cache).isSome = tAvail
  generalize invokeSetupHelper os st.setupAttempted = retry
  repeat' split
  all_goals simp_all

theorem stepLoop_launched (os : OS) (model : Option String) (st : LoopState) :
    (stepLoop os model st).1.launchedSetup = true →
      st.setupAttempted = false ∧
        (stepLoop os model st).2.1.setupAttempted = true := by
  simp only [stepLoop]
  generalize (if st.nextPrompt = true then copilotEnv os st.promptIdx true st.cache
      else (⟨os.env, st.cache, false⟩ : EnvBuild)) = eb
  generalize os.execute st.invIdx (envWithModel model eb.env) = r0
  generalize isAuthError (r0.2.1 ++ r0.2.2) = aErr
  generalize (resolveToken os eb.cache).isSome = tAvail
  generalize invokeSetupHelper os st.setupAttempted = retry
  repeat' split
  all_goals intro h
  all_goals simp_all

theorem runLoop_acc (os : OS) (model : Option String) :
    ∀ fuel st tr, runLoop os model fuel st tr =
      (runLoop os model fuel st []).map
        (fun x => (x.1, x.2.1, tr ++ x.2.2)) := by
  intro fuel
  induction fuel with
  | zero => intro st tr; rfl
  | succ n ih =>
    intro st tr
    simp only [runLoop]
    rcases hs : stepLoop os model st with ⟨info, st2, res⟩
    cases res with
    | some r => simp
    | none =>
      dsimp only
      rw [ih st2 (tr ++ [info]), ih st2 ([] ++ [info])]
      cases hr : runLoop os model n st2 [] with
      | none => rfl
      | some x => simp

/-- The loop variant of `_run_copilot_cli`: each `continue` permanently
sets one of the two one-shot flags. -/
def loopMeasure (st : LoopState) : Nat :=
  (if st.attemptedPrompt then 0 else 1) + (if st.setupAttempted then 0 else 1)

theorem stepLoop_measure (os : OS) (model : Option String) (st : LoopState)
    (h : (stepLoop os model st).2.2 = none) :
    loopMeasure (stepLoop os model st).2.1 < loopMeasure st := by
  rcases stepLoop_continue os model st h with
    ⟨_, hap, hap2, _, _, _, hsa, _⟩ | ⟨_, hap2, hsa2, hsa, _⟩
  · simp [loopMeasure, hap, hap2, hsa]
  · simp [loopMeasure, hap2, hsa2, hsa]

theorem runLoop_some (os : OS) (model : Option String) :
    ∀ fuel st, loopMeasure st < fuel →
      ∃ r st2 suf, runLoop os model fuel st [] = some (r, st2, suf) ∧
        suf.length ≤ loopMeasure st + 1 := by
  intro fuel
  induction fuel with
  | zero => intro st h; omega
  | succ n ih =>
    intro st h
    simp only [runLoop]
    rcases hs : stepLoop os model st with ⟨info, st2, res⟩
    cases res with
    | some r =>
      exact ⟨r, st2, [info], rfl, by simp⟩
    | none =>
      have hm : loopMeasure st2 < loopMeasure st := by
        have := stepLoop_measure os model st (by rw [hs])
        rwa [hs] at this
      rcases ih st2 (by omega) with ⟨r, st3, suf, hrun, hlen⟩
      refine ⟨r, st3, info :: suf, ?_, by simp; omega⟩
      dsimp only
      rw [runLoop_acc, hrun]
      rfl

/-- The shape of a reachable invocation trace with respect to the
prompting transition, relative to the incoming `next_prompt` /
`attempted_prompt` state: the first invocation uses the prompting
environment exactly when `next_prompt` was pending; a prompt can only
actually be issued on such an invocation; and any later invocation that
uses the prompting environment is immediately preceded by an attempt
classified as an auth failure with no resolvable credential, while no
prompt had been attempted before and prompting is enabled. -/
def suffixOk (os : OS) : Bool → Bool → List IterInfo → Bool
  | _, _, [] => true
  | np, ap, a :: rest =>
    (a.usedPromptEnv == np) && (!a.didPrompt || a.usedPromptEnv) &&
    (match rest with
     | [] => true
     | b :: _ =>
       if b.usedPromptEnv then
         (a.authError && !a.tokenAvail && !ap && promptAllowed os) &&
           suffixOk os true true rest
       else suffixOk os false ap rest)

theorem suffixOk_head (os : OS) (np ap : Bool) (b : IterInfo)
    (l : List IterInfo) (h : suffixOk os np ap (b :: l) = true) :
    b.usedPromptEnv = np := by
  rw [suffixOk.eq_def] at h
  simp only [Bool.and_eq_true, beq_iff_eq] at h
  exact h.1.1

theorem runLoop_head (os : OS) (model : Option String) :
    ∀ fuel st r st2 suf, runLoop os model fuel st [] = some (r, st2, suf) →
      ∀ b, suf.head? = some b → b.usedPromptEnv = st.nextPrompt := by
  intro fuel
  cases fuel with
  | zero => intro st r st2 suf h; exact absurd h (by simp [runLoop])
  | succ n =>
    intro st r st2 suf h b hb
    simp only [runLoop] at h
    rcases hs : stepLoop os model st with ⟨info, stM, res⟩
    rw [hs] at h
    have hused := stepLoop_used os model st
    rw [hs] at hused
    cases res with
    | some r2 =>
      simp at h
      rcases h with ⟨h1, h2, h3⟩
      rw [← h3] at hb
      simp at hb
      rw [← hb]
      exact hused
    | none =>
      dsimp only at h
      rw [runLoop_acc] at h
      cases hr : runLoop os model n stM [] with
      | none => rw [hr] at h; exact absurd h (by simp)
      | some x =>
        rw [hr] at h
        simp at h
        rcases h with ⟨h1, h2, h3⟩
        rw [← h3] at hb
        simp at hb
        rw [← hb]
        exact hused

theorem runLoop_suffixOk (os : OS) (model : Option String) :
    ∀ fuel st r st2 suf, runLoop os model fuel st [] = some (r, st2, suf) →
      suffixOk os st.nextPrompt st.attemptedPrompt suf = true := by
  intro fuel
  induction fuel with
  | zero => intro st r st2 suf h; exact absurd h (by simp [runLoop])
  | succ n ih =>
    intro st r st2 suf h
    simp only [runLoop] at h
    rcases hs : stepLoop os model st with ⟨info, stM, res⟩
    rw [hs] at h
    have hused := stepLoop_used os model st
    rw [hs] at hused
    have hdid : info.didPrompt = true → info.usedPromptEnv = true := by
      intro hd
      have := stepLoop_didPrompt os model st (by rw [hs]; exact hd)
      rw [hused, this.1]
    cases res with
    | some r2 =>
      simp at h
      rw [← h.2.2]
      rw [suffixOk.eq_def]
      simp only [Bool.and_eq_true, beq_iff_eq]
      refine ⟨⟨hused, ?_⟩, by simp⟩
      cases hd : info.didPrompt with
      | false => simp
      | true => simp [hdid hd]
    | none =>
      dsimp only at h
      rw [runLoop_acc] at h
      cases hr : runLoop os model n stM [] with
      | none => rw [hr] at h; exact absurd h (by simp)
      | some x =>
        rw [hr] at h
        simp at h
        rcases x with ⟨r2, st3, suf2⟩
        rcases h with ⟨h1, h2, h3⟩
        rw [← h3]
        have ihx := ih stM r2 st3 suf2 hr
        have hcont := stepLoop_continue os model st (by rw [hs])
        rw [hs] at hcont
        simp only at hcont
        rw [suffixOk.eq_def]
        simp only [Bool.and_eq_true, beq_iff_eq]
        refine ⟨⟨hused, ?_⟩, ?_⟩
        · cases hd : info.didPrompt with
          | false => simp
          | true => simp [hdid hd]
        · cases suf2 with
          | nil => simp
          | cons b l =>
            have hbhead : b.usedPromptEnv = stM.nextPrompt :=
              suffixOk_head os _ _ b l ihx
            rcases hcont with
              ⟨hnp2, hap, hap2, hauth, htok, hpa, _, _⟩ | ⟨hnp2, hap2, _, _, hauth⟩
            · rw [hnp2] at hbhead ihx
              rw [hap2] at ihx
              simp [hbhead, hauth, htok, hap, hpa, ihx]
            · rw [hnp2] at hbhead ihx
              rw [hap2] at ihx
              simp [hbhead, ihx]

theorem suffixOk_countUsed (os : OS) :
    ∀ tr np ap, suffixOk os np ap tr = true →
      tr.countP (fun i => i.usedPromptEnv) ≤
        (if np then 1 else 0) + (if ap then 0 else 1) := by
  intro tr
  induction tr with
  | nil => intro np ap h; simp
  | cons a rest ih =>
    intro np ap h
    rw [suffixOk.eq_def] at h
    simp only [Bool.and_eq_true, beq_iff_eq] at h
    obtain ⟨⟨hused, _⟩, hrest⟩ := h
    rw [List.countP_cons]
    cases rest with
    | nil =>
      subst hused
      cases a.usedPromptEnv <;> cases ap <;> simp
    | cons b l =>
      dsimp only at hrest
      by_cases hb : b.usedPromptEnv = true
      · rw [if_pos hb] at hrest
        simp only [Bool.and_eq_true, Bool.not_eq_true'] at hrest
        obtain ⟨⟨⟨⟨_, _⟩, hap⟩, _⟩, hs2⟩ := hrest
        have hcnt := ih true true hs2
        subst hused hap
        simp only [if_pos rfl] at hcnt ⊢
        cases a.usedPromptEnv <;> simp_all
      · rw [if_neg hb] at hrest
        have hcnt := ih false ap hrest
        subst hused
        cases a.usedPromptEnv <;> cases ap <;> simp_all

theorem suffixOk_didPrompt_mem (os : OS) :
    ∀ tr np ap, suffixOk os np ap tr = true →
      ∀ a2 ∈ tr, a2.didPrompt = true → a2.usedPromptEnv = true := by
  intro tr
  induction tr with
  | nil => intro np ap h a2 ha2; exact absurd ha2 (by simp)
  | cons a rest ih =>
    intro np ap h a2 ha2 hd
    rw [suffixOk.eq_def] at h
    simp only [Bool.and_eq_true, beq_iff_eq] at h
    obtain ⟨⟨hused, hdp⟩, hrest⟩ := h
    rcases List.mem_cons.1 ha2 with rfl | hmem
    · rcases Bool.or_eq_true_iff.1 hdp with hx | hx
      · rw [hd] at hx
        exact absurd hx (by simp)
      · exact hx
    · cases rest with
      | nil => exact absurd hmem (by simp)
      | cons b l =>
        dsimp only at hrest
        by_cases hb : b.usedPromptEnv = true
        · rw [if_pos hb] at hrest
          simp only [Bool.and_eq_true] at hrest
          exact ih true true hrest.2 a2 hmem hd
        · rw [if_neg hb] at hrest
          exact ih false ap hrest a2 hmem hd

theorem runLoop_setupCount (os : OS) (model : Option String) :
    ∀ fuel st r st2 suf, runLoop os model fuel st [] = some (r, st2, suf) →
      suf.countP (fun i => i.launchedSetup) ≤
        (if st.setupAttempted then 0 else 1) := by
  intro fuel
  induction fuel with
  | zero => intro st r st2 suf h; exact absurd h (by simp [runLoop])
  | succ n ih =>
    intro st r st2 suf h
    simp only [runLoop] at h
    rcases hs : stepLoop os model st with ⟨info, stM, res⟩
    rw [hs] at h
    cases res with
    | some r2 =>
      simp at h
      rw [← h.2.2, List.countP_cons]
      simp only [List.countP_nil]
      cases hl : info.launchedSetup with
      | false => simp
      | true =>
        have hla := stepLoop_launched os model st (by rw [hs]; exact hl)
        rw [hla.1]
        simp
    | none =>
      dsimp only at h
      rw [runLoop_acc] at h
      cases hr : runLoop os model n stM [] with
      | none => rw [hr] at h; exact absurd h (by simp)
      | some x =>
        rcases x with ⟨r2, st3, suf2⟩
        rw [hr] at h
        simp at h
        rw [← h.2.2, List.countP_cons]
        have ihx := ih stM r2 st3 suf2 hr
        cases hl : info.launchedSetup with
        | true =>
          have hla := stepLoop_launched os model st (by rw [hs]; exact hl)
          have hstM : stM.setupAttempted = true := by
            have h2 := hla.2
            rwa [hs] at h2
          rw [hstM] at ihx
          simp only [if_pos rfl] at ihx
          rw [hla.1]
          have hz : suf2.countP (fun i => i.launchedSetup) = 0 := Nat.le_zero.1 ihx
          simp [hl, hz]
        | false =>
          cases hsa : st.setupAttempted with
          | true =>
            have hstM : stM.setupAttempted = true := by
              have := stepLoop_setup_mono os model st hsa
              rwa [hs] at this
            rw [hstM] at ihx
            simpa using ihx
          | false =>
            have hle : suf2.countP (fun i => i.launchedSetup) ≤ 1 := by
              refine le_trans ihx ?_
              cases stM.setupAttempted <;> simp
            simp
            omega

theorem runLoop_plainEnv (os : OS) (model : Option String) :
    ∀ fuel st r st2 suf, runLoop os model fuel st [] = some (r, st2, suf) →
      ∀ a ∈ suf, a.usedPromptEnv = false → a.env = envWithModel model os.env := by
  intro fuel
  induction fuel with
  | zero => intro st r st2 suf h; exact absurd h (by simp [runLoop])
  | succ n ih =>
    intro st r st2 suf h a ha hu
    simp only [runLoop] at h
    rcases hs : stepLoop os model st with ⟨info, stM, res⟩
    rw [hs] at h
    have hinfo : info.usedPromptEnv = false → info.env = envWithModel model os.env := by
      intro hu2
      have hnp : st.nextPrompt = false := by
        have := stepLoop_used os model st
        rw [hs] at this
        dsimp only at this
        rw [← this]
        exact hu2
      have := stepLoop_plainEnv os model st hnp
      rwa [hs] at this
    cases res with
    | some r2 =>
      simp at h
      rw [← h.2.2] at ha
      simp at ha
      rw [ha] at hu ⊢
      exact hinfo hu
    | none =>
      dsimp only at h
      rw [runLoop_acc] at h
      cases hr : runLoop os model n stM [] with
      | none => rw [hr] at h; exact absurd h (by simp)
      | some x =>
        rcases x with ⟨r2, st3, suf2⟩
        rw [hr] at h
        simp at h
        rw [← h.2.2] at ha
        rcases List.mem_cons.1 ha with rfl | hmem
        · exact hinfo hu
        · exact ih stM r2 st3 suf2 hr a hmem hu

theorem runLoop_allowed (os : OS) (model : Option String) :
    ∀ fuel st r st2 suf, runLoop os model fuel st [] = some (r, st2, suf) →
      ∀ a ∈ suf, a.didPrompt = true → promptAllowed os = true := by
  intro fuel
  induction fuel with
  | zero => intro st r st2 suf h; exact absurd h (by simp [runLoop])
  | succ n ih =>
    intro st r st2 suf h a ha hd
    simp only [runLoop] at h
    rcases hs : stepLoop os model st with ⟨info, stM, res⟩
    rw [hs] at h
    have hinfo : info.didPrompt = true → promptAllowed os = true := by
      intro hd2
      exact (stepLoop_didPrompt os model st (by rw [hs]; exact hd2)).2
    cases res with
    | some r2 =>
      simp at h
      rw [← h.2.2] at ha
      simp at ha
      rw [ha] at hd
      exact hinfo hd
    | none =>
      dsimp only at h
      rw [runLoop_acc] at h
      cases hr : runLoop os model n stM [] with
      | none => rw [hr] at h; exact absurd h (by simp)
      | some x =>
        rcases x with ⟨r2, st3, suf2⟩
        rw [hr] at h
        simp at h
        rw [← h.2.2] at ha
        rcases List.mem_cons.1 ha with rfl | hmem
        · exact hinfo hd
        · exact ih stM r2 st3 suf2 hr a hmem hd

theorem runLoop_setupChain (os : OS) (model : Option String) :
    ∀ fuel st r st2 suf, runLoop os model fuel st [] = some (r, st2, suf) →
      List.Chain'
        (fun a b => a.launchedSetup = true → b.usedPromptEnv = false) suf := by
  intro fuel
  induction fuel with
  | zero => intro st r st2 suf h; exact absurd h (by simp [runLoop])
  | succ n ih =>
    intro st r st2 suf h
    simp only [runLoop] at h
    rcases hs : stepLoop os model st with ⟨info, stM, res⟩
    rw [hs] at h
    cases res with
    | some r2 =>
      simp at h
      rw [← h.2.2]
      simp
    | none =>
      dsimp only at h
      rw [runLoop_acc] at h
      cases hr : runLoop os model n stM [] with
      | none => rw [hr] at h; exact absurd h (by simp)
      | some x =>
        rcases x with ⟨r2, st3, suf2⟩
        rw [hr] at h
        simp at h
        rw [← h.2.2]
        rw [List.chain'_cons']
        refine ⟨?_, ih stM r2 st3 suf2 hr⟩
        intro b hb hl
        have hbu : b.usedPromptEnv = stM.nextPrompt :=
          runLoop_head os model n stM r2 st3 suf2 hr b hb
        have hcont := stepLoop_continue os model st (by rw [hs])
        rw [hs] at hcont
        dsimp only at hcont
        rcases hcont with ⟨_, _, _, _, _, _, _, hl0⟩ | ⟨hnp2, _, _, _, _⟩
        · rw [hl] at hl0
          exact absurd hl0 (by simp)
        · rw [hbu, hnp2]

theorem runLoop_final (os : OS) (model : Option String) :
    ∀ fuel st r st2 suf, runLoop os model fuel st [] = some (r, st2, suf) →
      ∃ info, suf.getLast? = some info ∧
        (info.authError = false →
          r = (info.result.1, info.result.2.1, info.result.2.2)) ∧
        (info.authError = true →
          r.1 = (if info.result.1 = 0 then 1 else info.result.1) ∧
          r.2.1 = info.result.2.1 ∧ r.2.2 = appendTip info.result.2.2) := by
  intro fuel
  induction fuel with
  | zero => intro st r st2 suf h; exact absurd h (by simp [runLoop])
  | succ n ih =>
    intro st r st2 suf h
    simp only [runLoop] at h
    rcases hs : stepLoop os model st with ⟨info, stM, res⟩
    rw [hs] at h
    cases res with
    | some r2 =>
      simp at h
      have hret := stepLoop_return os model st r2 (by rw [hs])
      rw [hs] at hret
      dsimp only at hret
      refine ⟨info, ?_, ?_, ?_⟩
      · rw [← h.2.2]
        rfl
      · intro hae
        rw [← h.1]
        exact hret.1 hae
      · intro hae
        rw [← h.1]
        exact hret.2 hae
    | none =>
      dsimp only at h
      rw [runLoop_acc] at h
      cases hr : runLoop os model n stM [] with
      | none => rw [hr] at h; exact absurd h (by simp)
      | some x =>
        rcases x with ⟨r2, st3, suf2⟩
        rw [hr] at h
        simp at h
        rcases ih stM r2 st3 suf2 hr with ⟨info2, hlast, hrel1, hrel2⟩
        refine ⟨info2, ?_, ?_, ?_⟩
        · rw [← h.2.2]
          cases suf2 with
          | nil => exact absurd hlast (by simp)
          | cons b l => rw [List.getLast?_cons_cons]; exact hlast
        · rw [← h.1]; exact hrel1
        · rw [← h.1]; exact hrel2

theorem runCopilotCli_cases (os : OS) (model : Option String)
    (cache : Option String) (sa : Bool) :
    runCopilotCli os model cache sa =
        runLoop os model 3 (initState cache sa) [] ∨
      ∃ msg, runCopilotCli os model cache sa =
        some ((128, "", msg), initState cache sa, []) := by
  unfold runCopilotCli
  cases os.findExe with
  | some e => exact Or.inl rfl
  | none =>
    by_cases hi : os.installOk = false
    · rw [if_pos hi]
      exact Or.inr ⟨_, rfl⟩
    · rw [if_neg hi]
      cases os.findExeAfterInstall with
      | some e => exact Or.inl rfl
      | none => exact Or.inr ⟨_, rfl⟩

theorem countP_le_of_imp (p q : IterInfo → Bool) :
    ∀ l : List IterInfo, (∀ a ∈ l, p a = true → q a = true) →
      l.countP p ≤ l.countP q := by
  intro l
  induction l with
  | nil => intro h; simp
  | cons a rest ih =>
    intro h
    have hr := ih (fun x hx => h x (List.mem_cons_of_mem a hx))
    by_cases hp : p a = true
    · rw [List.countP_cons_of_pos p _ hp,
        List.countP_cons_of_pos q _ (h a (List.mem_cons_self a rest) hp)]
      omega
    · rw [List.countP_cons_of_neg p _ (by simpa using hp)]
      calc rest.countP p ≤ rest.countP q := hr
        _ ≤ (a :: rest).countP q := by
            rw [List.countP_cons]
            exact Nat.le_add_right _ _

/-- C1.  In every call to `_run_copilot_cli`, the interactive credential
prompt is issued at most once, the prompting environment is used for at
most one invocation, the trace satisfies `suffixOk os false false`
(first invocation unprompted; a prompted invocation is immediately
preceded by an attempt classified as an auth failure with no resolvable
credential, with no prompt previously attempted in the call), and a
prompt is only ever issued while prompting is not disabled by the
environment flag — so a second auth failure after the prompted retry
never re-prompts. -/
theorem run_copilot_cli_prompts_once (os : OS) (model : Option String)
    (cache : Option String) (sa : Bool) (r : Int × String × String)
    (st2 : LoopState) (tr : List IterInfo)
    (h : runCopilotCli os model cache sa = some (r, st2, tr)) :
    tr.countP (fun i => i.didPrompt) ≤ 1 ∧
    tr.countP (fun i => i.usedPromptEnv) ≤ 1 ∧
    suffixOk os false false tr = true ∧
    (∀ a ∈ tr, a.didPrompt = true → promptAllowed os = true) := by
  rcases runCopilotCli_cases os model cache sa with hc | ⟨msg, hc⟩
  · rw [hc] at h
    have hsuf := runLoop_suffixOk os model 3 (initState cache sa) r st2 tr h
    have hsuf2 : suffixOk os false false tr = true := hsuf
    have hcu := suffixOk_countUsed os tr false false hsuf2
    have hmem := suffixOk_didPrompt_mem os tr false false hsuf2
    have hcd := countP_le_of_imp (fun i => i.didPrompt)
      (fun i => i.usedPromptEnv) tr hmem
    refine ⟨le_trans hcd (by simpa using hcu), by simpa using hcu, hsuf2, ?_⟩
    exact runLoop_allowed os model 3 (initState cache sa) r st2 tr h
  · rw [hc] at h
    simp at h
    rw [h.2.2]
    simp [suffixOk]

/-- C5.  Every call to `_run_copilot_cli` terminates with a result, the
external tool is invoked at most 3 times (initial attempt, at most one
prompt-retry attempt, at most one post-setup-helper attempt), and the
setup helper is launched at most once — never when the process-wide
`_SETUP_HELPER_ATTEMPTED` flag is already set. -/
theorem run_copilot_cli_terminates (os : OS) (model : Option String)
    (cache : Option String) (sa : Bool) :
    ∃ out, runCopilotCli os model cache sa = some out ∧
      out.2.2.length ≤ 3 ∧
      out.2.2.countP (fun i => i.usedPromptEnv) ≤ 1 ∧
      out.2.2.countP (fun i => i.launchedSetup) ≤ (if sa then 0 else 1) := by
  rcases runCopilotCli_cases os model cache sa with hc | ⟨msg, hc⟩
  · have hm : loopMeasure (initState cache sa) < 3 := by
      simp only [loopMeasure, initState]
      cases sa <;> simp
    rcases runLoop_some os model 3 (initState cache sa) hm with
      ⟨r, st2, suf, hrun, hlen⟩
    refine ⟨(r, st2, suf), by rw [hc]; exact hrun, ?_, ?_, ?_⟩
    · refine le_trans hlen ?_
      simp only [loopMeasure, initState]
      cases sa <;> simp
    · have hsuf := runLoop_suffixOk os model 3 (initState cache sa) r st2 suf hrun
      have hcu := suffixOk_countUsed os suf false false hsuf
      simpa using hcu
    · have := runLoop_setupCount os model 3 (initState cache sa) r st2 suf hrun
      simpa [initState] using this
  · exact ⟨_, hc, by simp, by simp, by simp⟩

theorem run_copilot_cli_terminates_witness :
    ∃ out, runCopilotCli osC7 none none false = some out ∧
      out.2.2.length ≤ 3 :=
  match run_copilot_cli_terminates osC7 none none false with
  | ⟨out, hout, hlen, _, _⟩ => ⟨out, hout, hlen⟩

/-- C10.  `_run_copilot_cli` never returns exit code 0 when the final
attempt's combined output is classified as an auth failure: if the last
recorded attempt is an auth failure whose tool exit code was 0, the
returned code is rewritten to 1 and the remediation tip naming the
manual login steps is appended to the returned stderr. -/
theorem run_copilot_cli_auth_rewrite (os : OS) (model : Option String)
    (cache : Option String) (sa : Bool) (r : Int × String × String)
    (st2 : LoopState) (tr : List IterInfo) (info : IterInfo)
    (h : runCopilotCli os model cache sa = some (r, st2, tr))
    (hlast : tr.getLast? = some info) :
    (r.1 = 0 → info.authError = false) ∧
    (info.authError = true → info.result.1 = 0 →
      r.1 = 1 ∧ r.2.1 = info.result.2.1 ∧
        r.2.2 = appendTip info.result.2.2) := by
  rcases runCopilotCli_cases os model cache sa with hc | ⟨msg, hc⟩
  · rw [hc] at h
    rcases runLoop_final os model 3 (initState cache sa) r st2 tr h with
      ⟨info2, hlast2, hrel1, hrel2⟩
    rw [hlast] at hlast2
    have heq : info = info2 := Option.some.inj hlast2
    subst heq
    constructor
    · intro hr0
      cases hae : info.authError with
      | false => rfl
      | true =>
        exfalso
        rcases hrel2 hae with ⟨h1, _, _⟩
        by_cases hrc : info.result.1 = 0
        · rw [if_pos hrc] at h1
          rw [h1] at hr0
          exact absurd hr0 (by norm_num)
        · rw [if_neg hrc] at h1
          rw [h1] at hr0
          exact hrc hr0
    · intro hae hrc
      rcases hrel2 hae with ⟨h1, h2, h3⟩
      rw [if_pos hrc] at h1
      exact ⟨h1, h2, h3⟩
  · rw [hc] at h
    simp at h
    rw [h.2.2] at hlast
    exact absurd hlast (by simp)

/-- C3 (amended).  After the setup helper launches and the loop
re-invokes the tool, that re-invocation — like every invocation not
made through the prompt-retry transition — runs with a fresh copy of
the caller's plain process environment (plus the `COPILOT_MODEL`
override when a model is given); the resolved credential is NOT
exported into it.  Credential-augmented environments are used only for
the prompt-retry invocation. -/
theorem run_copilot_cli_post_setup_plain_env (os : OS)
    (model : Option String) (cache : Option String) (sa : Bool)
    (r : Int × String × String) (st2 : LoopState) (tr : List IterInfo)
    (h : runCopilotCli os model cache sa = some (r, st2, tr)) :
    (∀ a ∈ tr, a.usedPromptEnv = false →
      a.env = envWithModel model os.env) ∧
    List.Chain' (fun a b => a.launchedSetup = true →
      b.usedPromptEnv = false) tr := by
  rcases runCopilotCli_cases os model cache sa with hc | ⟨msg, hc⟩
  · rw [hc] at h
    exact ⟨runLoop_plainEnv os model 3 (initState cache sa) r st2 tr h,
      runLoop_setupChain os model 3 (initState cache sa) r st2 tr h⟩
  · rw [hc] at h
    simp at h
    rw [h.2.2]
    exact ⟨by simp, by simp⟩

/-- The concrete scenario refuting C3 as stated: a resolvable credential
in a secondary env var, an auth-failing tool, and a setup helper that
exits 0. -/
def osC3 : OS where
  env := fun k => if k = "GH_COPILOT_TOKEN" then some "tok-c3" else none
  userEnv := fun _ => none
  isWindows := false
  promptResults := fun _ => none
  setupHelperExists := true
  setupHelperExit := some 0
  execute := fun _ _ => (0, "please run /login", "")
  findExe := some "copilot.exe"
  installOk := false
  findExeAfterInstall := none

theorem run_copilot_cli_setup_env_counterexample :
    (runCopilotCli osC3 none none false).map
        (fun out => out.2.2.map
          (fun i => (i.usedPromptEnv, i.launchedSetup,
            i.env "COPILOT_REQUESTS_PAT"))) =
      some [(false, true, none), (false, false, none)] ∧
    resolveToken osC3 none = some "tok-c3" ∧
    (copilotEnv osC3 0 false none).env "COPILOT_REQUESTS_PAT" =
      some "tok-c3" := by
  refine ⟨?_, ?_, ?_⟩ <;> rfl

theorem run_copilot_cli_post_setup_plain_env_witness :
    ∃ r st2 tr, runCopilotCli osC3 none none false = some (r, st2, tr) ∧
      ∀ a ∈ tr, a.usedPromptEnv = false → a.env = envWithModel none osC3.env := by
  have hs : (runCopilotCli osC3 none none false).isSome = true := by rfl
  rcases hopt : runCopilotCli osC3 none none false with _ | ⟨r, st2, tr⟩
  · rw [hopt] at hs
    exact absurd hs (by simp)
  · exact ⟨r, st2, tr, rfl,
      (run_copilot_cli_post_setup_plain_env osC3 none none false r st2 tr
        hopt).1⟩

/-- The concrete scenario exercising the prompt path: no credential
anywhere, an auth-failing tool, the user supplies a token at the
prompt, and the setup helper is absent. -/
def osC1 : OS where
  env := fun _ => none
  userEnv := fun _ => none
  isWindows := false
  promptResults := fun _ => some "prompted-tok"
  setupHelperExists := false
  setupHelperExit := none
  execute := fun _ _ => (1, "", "authenticate with github first")
  findExe := some "copilot.exe"
  installOk := false
  findExeAfterInstall := none

theorem run_copilot_cli_prompts_once_witness :
    ∃ r st2 tr, runCopilotCli osC1 none none false = some (r, st2, tr) ∧
      tr.countP (fun i => i.didPrompt) ≤ 1 ∧
      suffixOk osC1 false false tr = true := by
  have hs : (runCopilotCli osC1 none none false).isSome = true := by rfl
  rcases hopt : runCopilotCli osC1 none none false with _ | ⟨r, st2, tr⟩
  · rw [hopt] at hs
    exact absurd hs (by simp)
  · rcases run_copilot_cli_prompts_once osC1 none none false r st2 tr hopt with
      ⟨h1, _, h3, _⟩
    exact ⟨r, st2, tr, rfl, h1, h3⟩

theorem run_copilot_cli_auth_rewrite_witness :
    ∃ r st2 tr info, runCopilotCli osC3 none none false = some (r, st2, tr) ∧
      tr.getLast? = some info ∧
      (info.authError = true → info.result.1 = 0 → r.1 = 1) := by
  have hs : (runCopilotCli osC3 none none false).isSome = true := by rfl
  rcases hopt : runCopilotCli osC3 none none false with _ | ⟨r, st2, tr⟩
  · rw [hopt] at hs
    exact absurd hs (by simp)
  · have hl : (runCopilotCli osC3 none none false).map
        (fun out => out.2.2.getLast?.isSome) = some true := by rfl
    rw [hopt] at hl
    have hl2 : tr.getLast?.isSome = true := Option.some.inj hl
    rcases hlast : tr.getLast? with _ | info
    · rw [hlast] at hl2
      exact absurd hl2 (by simp)
    · refine ⟨r, st2, tr, info, rfl, hlast, ?_⟩
      intro ha hrc
      exact ((run_copilot_cli_auth_rewrite osC3 none none false r st2 tr info
        hopt hlast).2 ha hrc).1

end WhoIsJC
